import Mathlib

/-!
Shallow embedding of the event-ticket blockchain (source: `28chain.py`).

The source hashes Python dicts with `hashlib.sha256(json.dumps(d, sort_keys=True).encode())`.
We embed SHA-256 itself (on byte lists, words as `Nat` truncated mod 2^32) together with the
exact `json.dumps(..., sort_keys=True)` rendering of the records the program serializes
(default separators `", "` and `": "`, keys sorted by code point, `ensure_ascii` escaping).
Ambient effects of the source (`time.time()` timestamps, `uuid.uuid4()` ticket ids) enter the
embedding as explicit arguments; a timestamp is carried as the exact decimal string that
`json.dumps` would emit for the underlying float. The unbounded proof-of-work loop is embedded
with explicit fuel and an `Option` result: `none` models the loop still running.
-/

set_option maxRecDepth 40000

/-- Truncation to a 32-bit word. -/
def w32 (n : Nat) : Nat := n % 4294967296

/-- Right rotation of a 32-bit word. -/
def rotr32 (k x : Nat) : Nat := w32 ((x >>> k) ||| (x <<< (32 - k)))

def bigSigma0 (x : Nat) : Nat := rotr32 2 x ^^^ rotr32 13 x ^^^ rotr32 22 x

def bigSigma1 (x : Nat) : Nat := rotr32 6 x ^^^ rotr32 11 x ^^^ rotr32 25 x

def smallSigma0 (x : Nat) : Nat := rotr32 7 x ^^^ rotr32 18 x ^^^ (x >>> 3)

def smallSigma1 (x : Nat) : Nat := rotr32 17 x ^^^ rotr32 19 x ^^^ (x >>> 10)

def chFun (x y z : Nat) : Nat := (x &&& y) ^^^ ((x ^^^ 4294967295) &&& z)

def majFun (x y z : Nat) : Nat := (x &&& y) ^^^ (x &&& z) ^^^ (y &&& z)

/-- The 64 SHA-256 round constants, in decimal. -/
def shaK : List Nat :=
  [1116352408, 1899447441, 3049323471, 3921009573, 961987163, 1508970993,
   2453635748, 2870763221, 3624381080, 310598401, 607225278, 1426881987,
   1925078388, 2162078206, 2614888103, 3248222580, 3835390401, 4022224774,
   264347078, 604807628, 770255983, 1249150122, 1555081692, 1996064986,
   2554220882, 2821834349, 2952996808, 3210313671, 3336571891, 3584528711,
   113926993, 338241895, 666307205, 773529912, 1294757372, 1396182291,
   1695183700, 1986661051, 2177026350, 2456956037, 2730485921, 2820302411,
   3259730800, 3345764771, 3516065817, 3600352804, 4094571909, 275423344,
   430227734, 506948616, 659060556, 883997877, 958139571, 1322822218,
   1537002063, 1747873779, 1955562222, 2024104815, 2227730452, 2361852424,
   2428436474, 2756734187, 3204031479, 3329325298]

/-- The eight 32-bit working variables of the SHA-256 state. -/
structure Hash8 where
  a : Nat
  b : Nat
  c : Nat
  d : Nat
  e : Nat
  f : Nat
  g : Nat
  h : Nat
deriving DecidableEq

/-- The SHA-256 initial hash value, in decimal. -/
def initH : Hash8 :=
  ⟨1779033703, 3144134277, 1013904242, 2773480762,
   1359893119, 2600822924, 528734635, 1541459225⟩

/-- Big-endian 8-byte encoding of the message bit length. -/
def lenBytes64 (n : Nat) : List Nat :=
  [n >>> 56 &&& 255, n >>> 48 &&& 255, n >>> 40 &&& 255, n >>> 32 &&& 255,
   n >>> 24 &&& 255, n >>> 16 &&& 255, n >>> 8 &&& 255, n &&& 255]

/-- SHA-256 padding: a 0x80 byte, zeros to 56 mod 64, then the bit length. -/
def padMessage (msg : List Nat) : List Nat :=
  msg ++ (128 :: List.replicate ((119 - msg.length % 64) % 64) 0) ++ lenBytes64 (8 * msg.length)

def chunksGo : Nat → List Nat → List (List Nat)
  | _, [] => []
  | 0, _ :: _ => []
  | fuel + 1, b :: bs => ((b :: bs).take 64) :: chunksGo fuel ((b :: bs).drop 64)

/-- Split a byte list into 64-byte chunks. -/
def chunks64 (bs : List Nat) : List (List Nat) := chunksGo bs.length bs

/-- Big-endian 32-bit words of a chunk. -/
def toWords : List Nat → List Nat
  | b0 :: b1 :: b2 :: b3 :: rest => (b3 ||| (b2 <<< 8) ||| (b1 <<< 16) ||| (b0 <<< 24)) :: toWords rest
  | _ => []

def extendLoop : Nat → List Nat → List Nat
  | 0, ws => ws
  | k + 1, ws =>
    let n := ws.length
    let w := w32 (smallSigma1 (ws.getD (n - 2) 0) + ws.getD (n - 7) 0 +
                  smallSigma0 (ws.getD (n - 15) 0) + ws.getD (n - 16) 0)
    extendLoop k (ws ++ [w])

/-- Extend the 16 message-schedule words to 64. -/
def extendWords (ws : List Nat) : List Nat := extendLoop 48 ws

/-- One SHA-256 compression round. -/
def shaRound (st : Hash8) (kw : Nat × Nat) : Hash8 :=
  let t1 := w32 (st.h + bigSigma1 st.e + chFun st.e st.f st.g + kw.1 + kw.2)
  let t2 := w32 (bigSigma0 st.a + majFun st.a st.b st.c)
  ⟨w32 (t1 + t2), st.a, st.b, st.c, w32 (st.d + t1), st.e, st.f, st.g⟩

/-- Compress one 64-byte chunk into the running state. -/
def compress (st : Hash8) (chunk : List Nat) : Hash8 :=
  let ws := extendWords (toWords chunk)
  let fin := (shaK.zip ws).foldl shaRound st
  ⟨w32 (st.a + fin.a), w32 (st.b + fin.b), w32 (st.c + fin.c), w32 (st.d + fin.d),
   w32 (st.e + fin.e), w32 (st.f + fin.f), w32 (st.g + fin.g), w32 (st.h + fin.h)⟩

/-- Big-endian bytes of a 32-bit word. -/
def wordBytes (w : Nat) : List Nat := [w >>> 24 &&& 255, w >>> 16 &&& 255, w >>> 8 &&& 255, w &&& 255]

/-- SHA-256 digest (32 bytes) of a byte list. -/
def sha256bytes (msg : List Nat) : List Nat :=
  let st := (chunks64 (padMessage msg)).foldl compress initH
  wordBytes st.a ++ wordBytes st.b ++ wordBytes st.c ++ wordBytes st.d ++
  wordBytes st.e ++ wordBytes st.f ++ wordBytes st.g ++ wordBytes st.h

/-- Lowercase hexadecimal digit. -/
def hexChar (n : Nat) : Char := if n < 10 then Char.ofNat (48 + n) else Char.ofNat (87 + n)

/-- Two lowercase hex characters of a byte. -/
def byteHex (b : Nat) : List Char := [hexChar (b / 16 % 16), hexChar (b % 16)]

/-- Lowercase hex string of a byte list. -/
def bytesToHex (bs : List Nat) : String := String.mk (bs.foldr (fun b acc => byteHex b ++ acc) [])

/-- UTF-8 bytes of an ASCII string (all strings the program hashes are ASCII). -/
def strBytes (s : String) : List Nat := s.toList.map Char.toNat

/-- `hashlib.sha256(...).hexdigest()`: lowercase hex digest of a byte list. -/
def sha256hex (msg : List Nat) : String := bytesToHex (sha256bytes msg)

/-- `\uXXXX` escape with four lowercase hex digits. -/
def uEscape (n : Nat) : List Char :=
  ['\\', 'u', hexChar (n / 4096 % 16), hexChar (n / 256 % 16), hexChar (n / 16 % 16), hexChar (n % 16)]

/-- `json.dumps` escaping of one character (`ensure_ascii=True` default). -/
def escapeChar (c : Char) : List Char :=
  let n := c.toNat
  if c = '"' then ['\\', '"']
  else if c = '\\' then ['\\', '\\']
  else if n = 8 then ['\\', 'b']
  else if n = 9 then ['\\', 't']
  else if n = 10 then ['\\', 'n']
  else if n = 12 then ['\\', 'f']
  else if n = 13 then ['\\', 'r']
  else if n < 32 then uEscape n
  else if n < 128 then [c]
  else if n < 65536 then uEscape n
  else uEscape (55296 + (n - 65536) / 1024) ++ uEscape (56320 + (n - 65536) % 1024)

/-- `json.dumps` rendering of a Python string. -/
def dumpString (s : String) : String :=
  String.mk ('"' :: s.toList.foldr (fun c acc => escapeChar c ++ acc) ['"'])

/-- A JSON leaf value carried in a transaction payload: a string, or a numeral
(int or float) carried as the exact decimal text `json.dumps` emits for it. -/
inductive JVal where
  | str : String → JVal
  | num : String → JVal
deriving DecidableEq

/-- `json.dumps` rendering of a payload leaf. -/
def dumpJVal : JVal → String
  | JVal.str s => dumpString s
  | JVal.num r => r

/-- `json.dumps` rendering of an optional string (`None` renders as `null`). -/
def dumpOptStr : Option String → String
  | none => "null"
  | some s => dumpString s

def charListLt : List Char → List Char → Bool
  | [], [] => false
  | [], _ :: _ => true
  | _ :: _, [] => false
  | c :: cs, d :: ds =>
    if c.toNat < d.toNat then true
    else if d.toNat < c.toNat then false
    else charListLt cs ds

/-- Python string comparison: lexicographic by code point. -/
def strLt (a b : String) : Bool := charListLt a.toList b.toList

def insertPair (p : String × String) : List (String × String) → List (String × String)
  | [] => [p]
  | q :: rest => if strLt p.1 q.1 then p :: q :: rest else q :: insertPair p rest

/-- Sort key/rendered-value pairs by key (code-point order, as Python `sorted`). -/
def sortPairs : List (String × String) → List (String × String)
  | [] => []
  | p :: rest => insertPair p (sortPairs rest)

/-- `json.dumps(d, sort_keys=True)` of a dict whose values are already rendered:
keys sorted, default separators `", "` and `": "`. -/
def dumpObjRendered (kvs : List (String × String)) : String :=
  "\x7b" ++ String.intercalate ", " ((sortPairs kvs).map (fun kv => dumpString kv.1 ++ ": " ++ kv.2)) ++ "\x7d"

/-- `json.dumps` of a list whose elements are already rendered. -/
def dumpArrRendered (items : List String) : String :=
  "[" ++ String.intercalate ", " items ++ "]"

def natToDecGo : Nat → Nat → List Char
  | 0, _ => []
  | fuel + 1, n => if n < 10 then [hexChar n] else natToDecGo fuel (n / 10) ++ [hexChar (n % 10)]

/-- Decimal rendering of a natural number (as `json.dumps` renders a Python int). -/
def natToDec (n : Nat) : String := String.mk (natToDecGo (n + 1) n)

/-- `json.dumps(d, sort_keys=True)` of a flat payload dict. -/
def dumpDataDict (d : List (String × JVal)) : String :=
  dumpObjRendered (d.map (fun kv => (kv.1, dumpJVal kv.2)))

/-- `Transaction.__init__`: tx_type, data payload, optional pubkey/signature, and the
`time.time()` capture carried as its `json.dumps` decimal text. -/
structure Transaction where
  tx_type : String
  data : List (String × JVal)
  sender_pubkey : Option String
  signature : Option String
  timestamp : String
deriving DecidableEq

/-- The record `Transaction.to_dict` returns: all five fields. -/
structure TxDict where
  tx_type : String
  data : List (String × JVal)
  sender_pubkey : Option String
  signature : Option String
  timestamp : String
deriving DecidableEq

/-- `Transaction.to_dict`. -/
def Transaction.to_dict (t : Transaction) : TxDict :=
  ⟨t.tx_type, t.data, t.sender_pubkey, t.signature, t.timestamp⟩

/-- `json.dumps(to_dict_record, sort_keys=True)`; the pairs below are listed in the
source dict-literal order and sorted by `dumpObjRendered`. -/
def dumpTxDict (d : TxDict) : String :=
  dumpObjRendered
    [("tx_type", dumpString d.tx_type), ("data", dumpDataDict d.data),
     ("sender_pubkey", dumpOptStr d.sender_pubkey), ("signature", dumpOptStr d.signature),
     ("timestamp", d.timestamp)]

/-- `Transaction.compute_hash`. -/
def Transaction.compute_hash (t : Transaction) : String :=
  sha256hex (strBytes (dumpTxDict t.to_dict))

/-- `Block.__init__` fields plus the `hash` attribute the miner sets afterwards
(`""` until it is assigned; the source never reads it before assigning it). -/
structure Block where
  index : Nat
  transactions : List Transaction
  timestamp : String
  prev_hash : String
  nonce : Nat
  hash : String
deriving DecidableEq

/-- `Block.__init__(index, transactions, prev_hash, nonce=0)` with the ambient
`time.time()` passed explicitly; the `hash` attribute is not yet set. -/
def Block.init (index : Nat) (transactions : List Transaction) (prev_hash : String)
    (ts : String) : Block :=
  ⟨index, transactions, ts, prev_hash, 0, ""⟩

/-- The `block_string` built by `Block.compute_hash`: `json.dumps` of the five-field
dict (pairs in source order, sorted on rendering). -/
def Block.blockString (b : Block) : String :=
  dumpObjRendered
    [("index", natToDec b.index),
     ("transactions", dumpArrRendered (b.transactions.map (fun t => dumpTxDict t.to_dict))),
     ("timestamp", b.timestamp),
     ("prev_hash", dumpString b.prev_hash),
     ("nonce", natToDec b.nonce)]

/-- `Block.compute_hash`. -/
def Block.compute_hash (b : Block) : String := sha256hex (strBytes b.blockString)

/-- A ticket-registry entry: the dict `{"owner": ..., "status": ...}`. -/
structure TicketEntry where
  owner : String
  status : String
deriving DecidableEq

/-- Python `dict.get`: first (unique) binding of a key in the registry. -/
def dictGet : List (String × TicketEntry) → String → Option TicketEntry
  | [], _ => none
  | kv :: rest, k => if kv.1 = k then some kv.2 else dictGet rest k

/-- Python `d[k] = v`: overwrite the existing binding in place, else append. -/
def dictSet : List (String × TicketEntry) → String → TicketEntry → List (String × TicketEntry)
  | [], k, v => [(k, v)]
  | kv :: rest, k, v => if kv.1 = k then (k, v) :: rest else kv :: dictSet rest k v

/-- The `Blockchain` object state: chain, pending buffer, ticket registry. -/
structure Blockchain where
  chain : List Block
  pending_transactions : List Transaction
  tickets : List (String × TicketEntry)
deriving DecidableEq

/-- The class attribute `Blockchain.difficulty = 2`. -/
def Blockchain.difficulty : Nat := 2

/-- The string `"0" * Blockchain.difficulty` the proof-of-work loop tests against. -/
def zeroPrefixStr : String := String.mk (List.replicate Blockchain.difficulty '0')

def listHeadMatches : List Char → List Char → Bool
  | [], _ => true
  | _ :: _, [] => false
  | c :: cs, d :: ds => (c == d) && listHeadMatches cs ds

/-- Python `str.startswith`. -/
def strStartsWith (s p : String) : Bool := listHeadMatches p.toList s.toList

/-- `Blockchain.create_genesis_block`: append `Block(0, [], "0")` with its stored
`hash` set to its own `compute_hash()`. -/
def Blockchain.create_genesis_block (ts : String) (bc : Blockchain) : Blockchain :=
  let genesis_block := Block.init 0 [] "0" ts
  { bc with chain := bc.chain ++ [{ genesis_block with hash := genesis_block.compute_hash }] }

/-- `Blockchain.__init__`: empty chain/pending/registry, then the genesis block. -/
def Blockchain.start (genesis_ts : String) : Blockchain :=
  Blockchain.create_genesis_block genesis_ts ⟨[], [], []⟩

/-- `Blockchain.add_transaction`: append to the pending buffer. -/
def Blockchain.add_transaction (bc : Blockchain) (t : Transaction) : Blockchain :=
  { bc with pending_transactions := bc.pending_transactions ++ [t] }

/-- `Blockchain.verify_ticket`: `self.tickets.get(ticket_id, None)`. -/
def Blockchain.verify_ticket (bc : Blockchain) (ticket_id : String) : Option TicketEntry :=
  dictGet bc.tickets ticket_id

/-- `Blockchain.record_ticket`: unconditional upsert of `{"owner", "status"}`. -/
def Blockchain.record_ticket (bc : Blockchain) (ticket_id owner status : String) : Blockchain :=
  { bc with tickets := dictSet bc.tickets ticket_id ⟨owner, status⟩ }

/-- The `while not computed_hash.startswith("0" * difficulty)` loop of
`Blockchain.proof_of_work`, with explicit fuel; `none` models the loop still
running after `fuel` increments. -/
def powLoop (b : Block) (nonce fuel : Nat) : Option (Nat × String) :=
  let computed_hash := Block.compute_hash { b with nonce := nonce }
  if strStartsWith computed_hash zeroPrefixStr then some (nonce, computed_hash)
  else
    match fuel with
    | 0 => none
    | f + 1 => powLoop b (nonce + 1) f

/-- `Blockchain.proof_of_work`: reset `block.nonce` to 0, search upward, and return
the block at its final nonce together with the winning digest. -/
def Blockchain.proof_of_work (fuel : Nat) (b : Block) : Option (Block × String) :=
  match powLoop b 0 fuel with
  | none => none
  | some (n, computed_hash) => some ({ b with nonce := n }, computed_hash)

/-- Outcome of `Blockchain.mine`. -/
inductive MineResult where
  /-- Python `return False`: the pending buffer was empty. -/
  | noPending : MineResult
  /-- The proof-of-work loop is still running after the given fuel (the source
  loop is unbounded; no observable state change has happened). -/
  | outOfFuel : MineResult
  /-- `self.chain[-1]` on an empty chain would raise `IndexError`; unreachable
  from a constructed `Blockchain`, which always holds the genesis block. -/
  | chainIndexError : MineResult
  /-- The freshly sealed and appended block. -/
  | mined : Block → MineResult
deriving DecidableEq

/-- `Blockchain.mine`, returning the result together with the post state. -/
def Blockchain.mine (fuel : Nat) (ts : String) (bc : Blockchain) : MineResult × Blockchain :=
  if bc.pending_transactions.isEmpty then (MineResult.noPending, bc)
  else
    match bc.chain.getLast? with
    | none => (MineResult.chainIndexError, bc)
    | some tip =>
      let new_block := Block.init bc.chain.length bc.pending_transactions tip.compute_hash ts
      match Blockchain.proof_of_work fuel new_block with
      | none => (MineResult.outOfFuel, bc)
      | some (b, proof) =>
        let sealed : Block := { b with hash := proof }
        (MineResult.mined sealed,
         { bc with chain := bc.chain ++ [sealed], pending_transactions := [] })

/-- Python `dict.get` on a transaction payload. -/
def dataGet : List (String × JVal) → String → Option JVal
  | [], _ => none
  | kv :: rest, k => if kv.1 = k then some kv.2 else dataGet rest k

/-- The `/issue` route body: build the `issue` transaction for a fresh uuid
(passed explicitly), append it, and register the ticket as `valid`. -/
def issue_ticket (ticket_id event owner : String) (price : JVal)
    (issuer_pubkey issuer_signature : Option String) (ts : String) (bc : Blockchain) :
    String × Blockchain :=
  let tx : Transaction :=
    ⟨"issue",
     [("ticket_id", JVal.str ticket_id), ("event", JVal.str event),
      ("owner", JVal.str owner), ("price", price)],
     issuer_pubkey, issuer_signature, ts⟩
  (ticket_id, (bc.add_transaction tx).record_ticket ticket_id owner "valid")

/-- Response of the `/transfer` route. -/
inductive TransferResult where
  /-- `{"error": "Invalid ticket"}`, status 400. -/
  | invalidTicket : TransferResult
  /-- `{"message": "Ticket transferred"}`, status 200. -/
  | transferred : TransferResult
deriving DecidableEq

/-- The `/transfer` route body. -/
def transfer_ticket (ticket_id new_owner : String) (sender_pubkey signature : Option String)
    (ts : String) (bc : Blockchain) : TransferResult × Blockchain :=
  match bc.verify_ticket ticket_id with
  | none => (TransferResult.invalidTicket, bc)
  | some ticket =>
    if ticket.status ≠ "valid" then (TransferResult.invalidTicket, bc)
    else
      let tx : Transaction :=
        ⟨"transfer", [("ticket_id", JVal.str ticket_id), ("new_owner", JVal.str new_owner)],
         sender_pubkey, signature, ts⟩
      (TransferResult.transferred,
       (bc.add_transaction tx).record_ticket ticket_id new_owner "valid")

/-- Response of the `/redeem` route. -/
inductive RedeemResult where
  /-- `{"error": "Invalid or already redeemed ticket"}`, status 400. -/
  | invalidOrRedeemed : RedeemResult
  /-- `{"message": "Ticket redeemed"}`, status 200. -/
  | redeemedOk : RedeemResult
deriving DecidableEq

/-- The `/redeem` route body. -/
def redeem_ticket (ticket_id : String) (sender_pubkey signature : Option String)
    (ts : String) (bc : Blockchain) : RedeemResult × Blockchain :=
  match bc.verify_ticket ticket_id with
  | none => (RedeemResult.invalidOrRedeemed, bc)
  | some ticket =>
    if ticket.status ≠ "valid" then (RedeemResult.invalidOrRedeemed, bc)
    else
      let tx : Transaction :=
        ⟨"redeem", [("ticket_id", JVal.str ticket_id)], sender_pubkey, signature, ts⟩
      (RedeemResult.redeemedOk,
       (bc.add_transaction tx).record_ticket ticket_id ticket.owner "redeemed")

/-- The `/ticket/<ticket_id>` route body: every transaction across all blocks whose
payload's `ticket_id` equals the requested id, in chain order, as `to_dict` records. -/
def ticket_history (ticket_id : String) (bc : Blockchain) : List TxDict :=
  bc.chain.foldl
    (fun history b =>
      b.transactions.foldl
        (fun history t =>
          if dataGet t.data "ticket_id" = some (JVal.str ticket_id)
          then history ++ [t.to_dict] else history)
        history)
    []

/-- One public operation on the global `Blockchain`, as exposed by the routes.
The uuid of an `issue` is fresh by construction (`uuid.uuid4()`), which the step
carries as the hypothesis that the generated id is not yet registered. -/
inductive Step : Blockchain → Blockchain → Prop where
  | issue (ticket_id event owner : String) (price : JVal) (pk sig : Option String)
      (ts : String) (bc : Blockchain) (fresh : bc.verify_ticket ticket_id = none) :
      Step bc (issue_ticket ticket_id event owner price pk sig ts bc).2
  | transfer (ticket_id new_owner : String) (pk sig : Option String) (ts : String)
      (bc : Blockchain) :
      Step bc (transfer_ticket ticket_id new_owner pk sig ts bc).2
  | redeem (ticket_id : String) (pk sig : Option String) (ts : String) (bc : Blockchain) :
      Step bc (redeem_ticket ticket_id pk sig ts bc).2
  | mine (fuel : Nat) (ts : String) (bc : Blockchain) :
      Step bc (Blockchain.mine fuel ts bc).2

/-- Zero or more public operations. -/
inductive Reach : Blockchain → Blockchain → Prop where
  | refl (bc : Blockchain) : Reach bc bc
  | tail {a b c : Blockchain} (hab : Reach a b) (hbc : Step b c) : Reach a c

/-- A state reachable from a freshly constructed `Blockchain`. -/
def Reachable (bc : Blockchain) : Prop :=
  ∃ ts, Reach (Blockchain.start ts) bc

/-- `compute_hash` reads every field except the stored `hash` attribute. -/
theorem Block.compute_hash_set_hash (b : Block) (x : String) :
    Block.compute_hash { b with hash := x } = Block.compute_hash b := rfl

/-- Any digest the proof-of-work loop accepts passes the difficulty test and is
the block's live hash at the accepted nonce. -/
theorem powLoop_spec (b : Block) :
    ∀ fuel nonce n h8, powLoop b nonce fuel = some (n, h8) →
      strStartsWith h8 zeroPrefixStr = true ∧
      h8 = Block.compute_hash { b with nonce := n } := by
  intro fuel
  induction fuel with
  | zero =>
    intro nonce n h8 h
    rw [powLoop] at h
    split at h
    · simp only [Option.some.injEq, Prod.mk.injEq] at h
      obtain ⟨rfl, rfl⟩ := h
      exact ⟨by assumption, rfl⟩
    · exact Option.noConfusion h
  | succ f ih =>
    intro nonce n h8 h
    rw [powLoop] at h
    split at h
    · simp only [Option.some.injEq, Prod.mk.injEq] at h
      obtain ⟨rfl, rfl⟩ := h
      exact ⟨by assumption, rfl⟩
    · exact ih (nonce + 1) n h8 h

/-- `proof_of_work` returns the winning digest together with the block at its final
nonce; the digest passes the difficulty test, equals the block's live hash there,
and every other field of the block is untouched. -/
theorem proof_of_work_spec (fuel : Nat) (b b2 : Block) (proof : String)
    (h : Blockchain.proof_of_work fuel b = some (b2, proof)) :
    strStartsWith proof zeroPrefixStr = true ∧
    proof = Block.compute_hash b2 ∧
    b2.index = b.index ∧ b2.transactions = b.transactions ∧ b2.timestamp = b.timestamp ∧
    b2.prev_hash = b.prev_hash ∧ b2.hash = b.hash := by
  rw [Blockchain.proof_of_work] at h
  split at h
  · exact Option.noConfusion h
  case _ n computed heq =>
    simp only [Option.some.injEq, Prod.mk.injEq] at h
    obtain ⟨rfl, rfl⟩ := h
    obtain ⟨h1, h2⟩ := powLoop_spec b fuel 0 n computed heq
    exact ⟨h1, h2, rfl, rfl, rfl, rfl, rfl⟩

/-- Everything a successful `mine` guarantees: the pending buffer was non-empty, the
sealed block links to the tip's live-recomputed hash, carries the pending
transactions at the next index with the call's timestamp, its stored hash passes the
difficulty test and equals its own `compute_hash`, and the post state appends
exactly that block, clears the buffer, and leaves the registry alone. -/
theorem mine_mined_spec (fuel : Nat) (ts : String) (bc bc2 : Blockchain) (blk : Block)
    (h : Blockchain.mine fuel ts bc = (MineResult.mined blk, bc2)) :
    bc.pending_transactions ≠ [] ∧
    (∃ tip, bc.chain.getLast? = some tip ∧ blk.prev_hash = Block.compute_hash tip) ∧
    blk.index = bc.chain.length ∧
    blk.transactions = bc.pending_transactions ∧
    blk.timestamp = ts ∧
    strStartsWith blk.hash zeroPrefixStr = true ∧
    blk.hash = Block.compute_hash blk ∧
    bc2.chain = bc.chain ++ [blk] ∧
    bc2.pending_transactions = [] ∧
    bc2.tickets = bc.tickets := by
  rw [Blockchain.mine] at h
  split at h
  · exact absurd (congrArg Prod.fst h) (by simp)
  case _ hne =>
    split at h
    · exact absurd (congrArg Prod.fst h) (by simp)
    case _ tip htip =>
      dsimp only [] at h
      split at h
      · exact absurd (congrArg Prod.fst h) (by simp)
      case _ b proof hpow =>
        obtain ⟨hz, hch, hidx, htx, hts, hprev, _⟩ :=
          proof_of_work_spec fuel _ b proof hpow
        simp only [Prod.mk.injEq, MineResult.mined.injEq] at h
        obtain ⟨rfl, rfl⟩ := h
        refine ⟨fun hnil => hne (by simp [hnil]), ⟨tip, htip, ?_⟩, ?_, ?_, ?_, ?_, ?_, rfl, rfl, rfl⟩
        · simpa [Block.init] using hprev
        · simpa [Block.init] using hidx
        · simpa [Block.init] using htx
        · simpa [Block.init] using hts
        · exact hz
        · rw [Block.compute_hash_set_hash]
          exact hch

/-- Writing a key and reading it back yields the written entry. -/
theorem dictGet_dictSet_self (m : List (String × TicketEntry)) (k : String) (v : TicketEntry) :
    dictGet (dictSet m k v) k = some v := by
  induction m with
  | nil => simp [dictGet, dictSet]
  | cons kv rest ih =>
    by_cases hk : kv.1 = k
    · simp [dictSet, hk, dictGet]
    · simp [dictSet, hk, dictGet, ih]

/-- Writing one key leaves every other key's entry unchanged. -/
theorem dictGet_dictSet_ne (m : List (String × TicketEntry)) (k k2 : String) (v : TicketEntry)
    (h : k2 ≠ k) : dictGet (dictSet m k2 v) k = dictGet m k := by
  induction m with
  | nil => simp [dictGet, dictSet, h]
  | cons kv rest ih =>
    by_cases hk : kv.1 = k2
    · simp [dictSet, hk, dictGet, h]
    · simp [dictSet, hk, dictGet, ih]

/-- C3: on an empty pending buffer, `mine()` returns the no-op signal (`False` in
the source, surfaced by the route as "No transactions to mine"), creates no block,
raises no error, and leaves the entire state — chain, pending buffer, and ticket
registry — unchanged. -/
theorem mine_empty_pending_noop (fuel : Nat) (ts : String) (bc : Blockchain)
    (h : bc.pending_transactions = []) :
    Blockchain.mine fuel ts bc = (MineResult.noPending, bc) := by
  rw [Blockchain.mine, if_pos (by simp [h])]

/-- C3 witness: mining a freshly constructed chain is the no-op. -/
theorem mine_empty_pending_noop_inst :
    Blockchain.mine 7 "1700009999.0" (Blockchain.start "1700000000.0") =
      (MineResult.noPending, Blockchain.start "1700000000.0") :=
  mine_empty_pending_noop 7 "1700009999.0" _ rfl

/-- C4: `transfer` rejects (with the "Invalid ticket" signal and completely unchanged
state) exactly the tickets that are unregistered or not `valid`; on a `valid` ticket
it appends exactly one `transfer` transaction to the pending buffer, leaves the chain
alone, and re-registers the ticket to the new owner with status still `valid`,
touching no other registry entry. -/
theorem transfer_ticket_spec (ticket_id new_owner : String) (pk sig : Option String)
    (ts : String) (bc : Blockchain) :
    ((bc.verify_ticket ticket_id = none ∨
        (∃ e, bc.verify_ticket ticket_id = some e ∧ e.status ≠ "valid")) →
      transfer_ticket ticket_id new_owner pk sig ts bc = (TransferResult.invalidTicket, bc)) ∧
    (∀ e, bc.verify_ticket ticket_id = some e → e.status = "valid" →
      (transfer_ticket ticket_id new_owner pk sig ts bc).1 = TransferResult.transferred ∧
      (transfer_ticket ticket_id new_owner pk sig ts bc).2.chain = bc.chain ∧
      (transfer_ticket ticket_id new_owner pk sig ts bc).2.pending_transactions =
        bc.pending_transactions ++
          [⟨"transfer", [("ticket_id", JVal.str ticket_id), ("new_owner", JVal.str new_owner)],
            pk, sig, ts⟩] ∧
      (transfer_ticket ticket_id new_owner pk sig ts bc).2.verify_ticket ticket_id =
        some ⟨new_owner, "valid"⟩ ∧
      ∀ other, other ≠ ticket_id →
        (transfer_ticket ticket_id new_owner pk sig ts bc).2.verify_ticket other =
          bc.verify_ticket other) := by
  constructor
  · rintro (hnone | ⟨e, he, hst⟩)
    · simp [transfer_ticket, hnone]
    · simp [transfer_ticket, he, hst]
  · intro e he hst
    simp only [Blockchain.verify_ticket] at he
    refine ⟨?_, ?_, ?_, ?_, ?_⟩
    · simp [transfer_ticket, Blockchain.verify_ticket, he, hst]
    · simp [transfer_ticket, Blockchain.verify_ticket, he, hst, Blockchain.add_transaction,
            Blockchain.record_ticket]
    · simp [transfer_ticket, Blockchain.verify_ticket, he, hst, Blockchain.add_transaction,
            Blockchain.record_ticket]
    · simp [transfer_ticket, Blockchain.verify_ticket, he, hst, Blockchain.add_transaction,
            Blockchain.record_ticket, dictGet_dictSet_self]
    · intro other hother
      simp [transfer_ticket, Blockchain.verify_ticket, he, hst, Blockchain.add_transaction,
            Blockchain.record_ticket, dictGet_dictSet_ne _ _ _ _ (Ne.symm hother)]

/-- A small registry state: one `valid` ticket and one `redeemed` ticket. -/
def regW : Blockchain :=
  ⟨[], [], [("t1", ⟨"alice", "valid"⟩), ("t2", ⟨"bob", "redeemed"⟩)]⟩

/-- C4 witness: an unknown id and a redeemed id are rejected without mutation; a
valid id is transferred, the transaction lands in the pending buffer, and the
registry shows the new owner still `valid`. -/
theorem transfer_ticket_spec_inst :
    transfer_ticket "zz" "carol" none none "1700000005.0" regW =
      (TransferResult.invalidTicket, regW) ∧
    transfer_ticket "t2" "carol" none none "1700000005.0" regW =
      (TransferResult.invalidTicket, regW) ∧
    ((transfer_ticket "t1" "carol" none none "1700000005.0" regW).1 =
        TransferResult.transferred ∧
     (transfer_ticket "t1" "carol" none none "1700000005.0" regW).2.chain = regW.chain ∧
     (transfer_ticket "t1" "carol" none none "1700000005.0" regW).2.pending_transactions =
       regW.pending_transactions ++
         [⟨"transfer", [("ticket_id", JVal.str "t1"), ("new_owner", JVal.str "carol")],
           none, none, "1700000005.0"⟩] ∧
     (transfer_ticket "t1" "carol" none none "1700000005.0" regW).2.verify_ticket "t1" =
       some ⟨"carol", "valid"⟩ ∧
     (transfer_ticket "t1" "carol" none none "1700000005.0" regW).2.verify_ticket "t2" =
       regW.verify_ticket "t2") :=
  ⟨(transfer_ticket_spec "zz" "carol" none none "1700000005.0" regW).1 (Or.inl (by decide)),
   (transfer_ticket_spec "t2" "carol" none none "1700000005.0" regW).1
     (Or.inr ⟨⟨"bob", "redeemed"⟩, by decide, by decide⟩),
   have h := (transfer_ticket_spec "t1" "carol" none none "1700000005.0" regW).2
     ⟨"alice", "valid"⟩ (by decide) rfl
   ⟨h.1, h.2.1, h.2.2.1, h.2.2.2.1, h.2.2.2.2 "t2" (by decide)⟩⟩

/-- C5: `redeem` fails with the "Invalid or already redeemed" signal exactly when the
registry entry is missing or not `valid`, and a failing call mutates nothing; a
successful call appends exactly one `redeem` transaction to the pending buffer,
leaves the chain alone, and sets the entry's status to `redeemed` with the owner
unchanged, touching no other registry entry. -/
theorem redeem_ticket_spec (ticket_id : String) (pk sig : Option String)
    (ts : String) (bc : Blockchain) :
    ((redeem_ticket ticket_id pk sig ts bc).1 = RedeemResult.invalidOrRedeemed ↔
       bc.verify_ticket ticket_id = none ∨
         (∃ e, bc.verify_ticket ticket_id = some e ∧ e.status ≠ "valid")) ∧
    ((bc.verify_ticket ticket_id = none ∨
        (∃ e, bc.verify_ticket ticket_id = some e ∧ e.status ≠ "valid")) →
      redeem_ticket ticket_id pk sig ts bc = (RedeemResult.invalidOrRedeemed, bc)) ∧
    (∀ e, bc.verify_ticket ticket_id = some e → e.status = "valid" →
      (redeem_ticket ticket_id pk sig ts bc).1 = RedeemResult.redeemedOk ∧
      (redeem_ticket ticket_id pk sig ts bc).2.chain = bc.chain ∧
      (redeem_ticket ticket_id pk sig ts bc).2.pending_transactions =
        bc.pending_transactions ++
          [⟨"redeem", [("ticket_id", JVal.str ticket_id)], pk, sig, ts⟩] ∧
      (redeem_ticket ticket_id pk sig ts bc).2.verify_ticket ticket_id =
        some ⟨e.owner, "redeemed"⟩ ∧
      ∀ other, other ≠ ticket_id →
        (redeem_ticket ticket_id pk sig ts bc).2.verify_ticket other =
          bc.verify_ticket other) := by
  cases hv : bc.verify_ticket ticket_id with
  | none =>
    have hv2 : dictGet bc.tickets ticket_id = none := hv
    refine ⟨?_, ?_, ?_⟩
    · simp [redeem_ticket, Blockchain.verify_ticket, hv2]
    · intro _; simp [redeem_ticket, Blockchain.verify_ticket, hv2]
    · intro e he _
      exact absurd he (by simp)
  | some e =>
    have hv2 : dictGet bc.tickets ticket_id = some e := hv
    by_cases hst : e.status = "valid"
    · refine ⟨?_, ?_, ?_⟩
      · simp [redeem_ticket, Blockchain.verify_ticket, hv2, hst]
      · rintro (hnone | ⟨e2, he2, hst2⟩)
        · exact Option.noConfusion hnone
        · obtain rfl : e = e2 := Option.some.inj he2
          exact absurd hst hst2
      · intro e2 he2 hst2
        obtain rfl : e2 = e := (Option.some.inj he2).symm
        refine ⟨?_, ?_, ?_, ?_, ?_⟩
        · simp [redeem_ticket, Blockchain.verify_ticket, hv2, hst]
        · simp [redeem_ticket, Blockchain.verify_ticket, hv2, hst, Blockchain.add_transaction,
                Blockchain.record_ticket]
        · simp [redeem_ticket, Blockchain.verify_ticket, hv2, hst, Blockchain.add_transaction,
                Blockchain.record_ticket]
        · simp [redeem_ticket, Blockchain.verify_ticket, hv2, hst, Blockchain.add_transaction,
                Blockchain.record_ticket, dictGet_dictSet_self]
        · intro other hother
          simp [redeem_ticket, Blockchain.verify_ticket, hv2, hst, Blockchain.add_transaction,
                Blockchain.record_ticket, dictGet_dictSet_ne _ _ _ _ (Ne.symm hother)]
    · refine ⟨?_, ?_, ?_⟩
      · simp [redeem_ticket, Blockchain.verify_ticket, hv2, hst]
      · intro _; simp [redeem_ticket, Blockchain.verify_ticket, hv2, hst]
      · intro e2 he2 hst2
        obtain rfl : e2 = e := (Option.some.inj he2).symm
        exact absurd hst2 hst

/-- C5 witness: an unknown id and a redeemed id fail with the invalid-or-redeemed
signal without mutation; a valid id is redeemed, the transaction lands in the
pending buffer, and the entry becomes `redeemed` with its owner kept. -/
theorem redeem_ticket_spec_inst :
    redeem_ticket "zz" none none "1700000006.0" regW =
      (RedeemResult.invalidOrRedeemed, regW) ∧
    redeem_ticket "t2" none none "1700000006.0" regW =
      (RedeemResult.invalidOrRedeemed, regW) ∧
    ((redeem_ticket "t1" none none "1700000006.0" regW).1 = RedeemResult.redeemedOk ∧
     (redeem_ticket "t1" none none "1700000006.0" regW).2.chain = regW.chain ∧
     (redeem_ticket "t1" none none "1700000006.0" regW).2.pending_transactions =
       regW.pending_transactions ++
         [⟨"redeem", [("ticket_id", JVal.str "t1")], none, none, "1700000006.0"⟩] ∧
     (redeem_ticket "t1" none none "1700000006.0" regW).2.verify_ticket "t1" =
       some ⟨"alice", "redeemed"⟩ ∧
     (redeem_ticket "t1" none none "1700000006.0" regW).2.verify_ticket "t2" =
       regW.verify_ticket "t2") :=
  ⟨(redeem_ticket_spec "zz" none none "1700000006.0" regW).2.1 (Or.inl (by decide)),
   (redeem_ticket_spec "t2" none none "1700000006.0" regW).2.1
     (Or.inr ⟨⟨"bob", "redeemed"⟩, by decide, by decide⟩),
   have h := (redeem_ticket_spec "t1" none none "1700000006.0" regW).2.2
     ⟨"alice", "valid"⟩ (by decide) rfl
   ⟨h.1, h.2.1, h.2.2.1, h.2.2.2.1, h.2.2.2.2 "t2" (by decide)⟩⟩

/-- `mine` never touches the ticket registry, whatever its outcome. -/
theorem mine_tickets_eq (fuel : Nat) (ts : String) (bc : Blockchain) :
    (Blockchain.mine fuel ts bc).2.tickets = bc.tickets := by
  rw [Blockchain.mine]
  split
  · rfl
  · split
    · rfl
    · dsimp only []
      split
      · rfl
      · rfl

/-- One public operation cannot move an entry away from `redeemed`: the entry
survives verbatim. Freshness of `issue` uuids is the `fresh` side condition of
`Step.issue`. -/
theorem step_preserves_redeemed {bc bc2 : Blockchain} (tid o : String)
    (hstep : Step bc bc2) (hred : bc.verify_ticket tid = some ⟨o, "redeemed"⟩) :
    bc2.verify_ticket tid = some ⟨o, "redeemed"⟩ := by
  have hred2 : dictGet bc.tickets tid = some ⟨o, "redeemed"⟩ := hred
  cases hstep with
  | issue tid2 ev ow pr pk sig ts bc fresh =>
    have hne : tid2 ≠ tid := by
      intro he
      rw [he] at fresh
      have : dictGet bc.tickets tid = none := fresh
      rw [this] at hred2
      exact Option.noConfusion hred2
    simpa [issue_ticket, Blockchain.add_transaction, Blockchain.record_ticket,
           Blockchain.verify_ticket, dictGet_dictSet_ne _ _ _ _ hne] using hred2
  | transfer tid2 nw pk sig ts bc =>
    by_cases h2 : tid2 = tid
    · subst h2
      simp [transfer_ticket, Blockchain.verify_ticket, hred2]
    · cases hv : dictGet bc.tickets tid2 with
      | none =>
        simpa [transfer_ticket, Blockchain.verify_ticket, hv] using hred2
      | some e =>
        by_cases hst : e.status = "valid"
        · simpa [transfer_ticket, Blockchain.verify_ticket, hv, hst,
                 Blockchain.add_transaction, Blockchain.record_ticket,
                 dictGet_dictSet_ne _ _ _ _ h2] using hred2
        · simpa [transfer_ticket, Blockchain.verify_ticket, hv, hst] using hred2
  | redeem tid2 pk sig ts bc =>
    by_cases h2 : tid2 = tid
    · subst h2
      simp [redeem_ticket, Blockchain.verify_ticket, hred2]
    · cases hv : dictGet bc.tickets tid2 with
      | none =>
        simpa [redeem_ticket, Blockchain.verify_ticket, hv] using hred2
      | some e =>
        by_cases hst : e.status = "valid"
        · simpa [redeem_ticket, Blockchain.verify_ticket, hv, hst,
                 Blockchain.add_transaction, Blockchain.record_ticket,
                 dictGet_dictSet_ne _ _ _ _ h2] using hred2
        · simpa [redeem_ticket, Blockchain.verify_ticket, hv, hst] using hred2
  | mine fuel ts bc =>
    have ht := mine_tickets_eq fuel ts bc
    simpa [Blockchain.verify_ticket, ht] using hred2

/-- C6: `redeemed` is terminal. Starting from any state whose registry holds a
ticket as `redeemed`, after any sequence of public operations (issue with a fresh
uuid, transfer, redeem, mine) the entry is still exactly `redeemed` with the same
owner, and any transfer or redeem of that id is rejected with the corresponding
invalid signal while leaving the whole state unchanged. -/
theorem redeemed_ticket_stays_redeemed (bc bc2 : Blockchain) (tid o : String)
    (hreach : Reach bc bc2) (hred : bc.verify_ticket tid = some ⟨o, "redeemed"⟩) :
    bc2.verify_ticket tid = some ⟨o, "redeemed"⟩ ∧
    (∀ nw pk sig ts, transfer_ticket tid nw pk sig ts bc2 =
      (TransferResult.invalidTicket, bc2)) ∧
    (∀ pk sig ts, redeem_ticket tid pk sig ts bc2 =
      (RedeemResult.invalidOrRedeemed, bc2)) := by
  have hred2 : bc2.verify_ticket tid = some ⟨o, "redeemed"⟩ := by
    induction hreach with
    | refl => exact hred
    | tail hab hbc ih => exact step_preserves_redeemed tid o hbc ih
  have hred3 : dictGet bc2.tickets tid = some ⟨o, "redeemed"⟩ := hred2
  refine ⟨hred2, ?_, ?_⟩
  · intro nw pk sig ts
    simp [transfer_ticket, Blockchain.verify_ticket, hred3]
  · intro pk sig ts
    simp [redeem_ticket, Blockchain.verify_ticket, hred3]

/-- C6 witness: in a state where ticket `t2` is redeemed, it stays redeemed and
both operations on it are rejected without mutation. -/
theorem redeemed_ticket_stays_redeemed_inst :
    regW.verify_ticket "t2" = some ⟨"bob", "redeemed"⟩ ∧
    transfer_ticket "t2" "carol" none none "1700000009.0" regW =
      (TransferResult.invalidTicket, regW) ∧
    redeem_ticket "t2" none none "1700000009.0" regW =
      (RedeemResult.invalidOrRedeemed, regW) :=
  have h := redeemed_ticket_stays_redeemed regW regW "t2" "bob" (Reach.refl regW) (by decide)
  ⟨h.1, h.2.1 "carol" none none "1700000009.0", h.2.2 none none "1700000009.0"⟩

/-- One public operation preserves "every block after the genesis position holds at
least one transaction": only `mine` touches the chain, and it only appends a block
built from a non-empty pending buffer. -/
theorem step_chain_tail_nonempty {bc bc2 : Blockchain}
    (hstep : Step bc bc2) (hinv : ∀ b ∈ bc.chain.drop 1, b.transactions ≠ []) :
    ∀ b ∈ bc2.chain.drop 1, b.transactions ≠ [] := by
  cases hstep with
  | issue tid ev ow pr pk sig ts bc fresh =>
    simpa [issue_ticket, Blockchain.add_transaction, Blockchain.record_ticket] using hinv
  | transfer tid nw pk sig ts bc =>
    cases hv : dictGet bc.tickets tid with
    | none => simpa [transfer_ticket, Blockchain.verify_ticket, hv] using hinv
    | some e =>
      by_cases hst : e.status = "valid"
      · simpa [transfer_ticket, Blockchain.verify_ticket, hv, hst,
               Blockchain.add_transaction, Blockchain.record_ticket] using hinv
      · simpa [transfer_ticket, Blockchain.verify_ticket, hv, hst] using hinv
  | redeem tid pk sig ts bc =>
    cases hv : dictGet bc.tickets tid with
    | none => simpa [redeem_ticket, Blockchain.verify_ticket, hv] using hinv
    | some e =>
      by_cases hst : e.status = "valid"
      · simpa [redeem_ticket, Blockchain.verify_ticket, hv, hst,
               Blockchain.add_transaction, Blockchain.record_ticket] using hinv
      · simpa [redeem_ticket, Blockchain.verify_ticket, hv, hst] using hinv
  | mine fuel ts bc =>
    rw [Blockchain.mine]
    split
    · exact hinv
    case _ hne =>
      split
      · exact hinv
      case _ tip htip =>
        dsimp only []
        split
        · exact hinv
        case _ b proof hpow =>
          obtain ⟨_, _, _, htx, _, _, _⟩ := proof_of_work_spec fuel _ b proof hpow
          intro b2 hb2
          cases hc : bc.chain with
          | nil =>
            rw [hc] at htip
            exact absurd htip (by simp)
          | cons c0 rest =>
            rw [hc] at hb2
            simp only [List.cons_append, List.drop_succ_cons, List.drop_zero] at hb2
            rcases List.mem_append.mp hb2 with h1 | h1
            · exact hinv b2 (by rw [hc]; simpa using h1)
            · have hb2eq : b2 = { b with hash := proof } := by simpa using h1
              subst hb2eq
              show b.transactions ≠ []
              rw [htx]
              show bc.pending_transactions ≠ []
              intro hnil
              exact hne (by simp [hnil])

/-- C10: in every state reachable through the public operations, every block other
than the genesis block carries at least one transaction — `mine` refuses an empty
pending buffer and is the only operation that appends blocks. -/
theorem nongenesis_blocks_have_transactions (bc : Blockchain) (h : Reachable bc) :
    ∀ b ∈ bc.chain.drop 1, b.transactions ≠ [] := by
  obtain ⟨ts, hr⟩ := h
  induction hr with
  | refl => intro b hb; simp [Blockchain.start, Blockchain.create_genesis_block] at hb
  | tail hab hbc ih => exact step_chain_tail_nonempty hbc ih

/-- C1: the difficulty constant is 2, and every block sealed by `proof_of_work` —
hence every block produced by `mine` — stores a hash with at least `difficulty`
leading zero hex characters that equals `compute_hash()` of the block at its final
nonce (the stored `hash` attribute does not feed back into `compute_hash`). -/
theorem mined_hash_meets_difficulty (fuel : Nat) :
    Blockchain.difficulty = 2 ∧
    (∀ b b2 proof, Blockchain.proof_of_work fuel b = some (b2, proof) →
       strStartsWith proof zeroPrefixStr = true ∧ proof = Block.compute_hash b2) ∧
    (∀ ts bc blk bc2, Blockchain.mine fuel ts bc = (MineResult.mined blk, bc2) →
       strStartsWith blk.hash zeroPrefixStr = true ∧ blk.hash = Block.compute_hash blk) := by
  refine ⟨rfl, ?_, ?_⟩
  · intro b b2 proof h
    obtain ⟨h1, h2, _⟩ := proof_of_work_spec fuel b b2 proof h
    exact ⟨h1, h2⟩
  · intro ts bc blk bc2 h
    obtain ⟨_, _, _, _, _, h6, h7, _⟩ := mine_mined_spec fuel ts bc bc2 blk h
    exact ⟨h6, h7⟩

/-- The genesis block of a chain constructed at timestamp `1700000000.0`, with its
stored hash (cross-checked against CPython `hashlib`/`json`). -/
def genesisW : Block :=
  ⟨0, [], "1700000000.0", "0", 0,
   "0ab02aea1088ad34cf61f4d2e3163f353c35cb4e692070b5c8beed0f7aea4f03"⟩

/-- An `issue` transaction as the `/issue` route builds it. -/
def tx1W : Transaction :=
  ⟨"issue",
   [("ticket_id", JVal.str "11111111-2222-4333-8444-555555555555"),
    ("event", JVal.str "concert"), ("owner", JVal.str "alice"), ("price", JVal.num "10")],
   none, none, "1700000001.0"⟩

/-- A block whose hash already meets the difficulty at nonce 0. -/
def blkC1W : Block := ⟨1, [], "1700000280.0", "deadbeef", 0, ""⟩

/-- A chain state ready to mine: genesis tip, one pending transaction, one ticket. -/
def bcC2W : Blockchain :=
  ⟨[genesisW], [tx1W],
   [("11111111-2222-4333-8444-555555555555", ⟨"alice", "valid"⟩)]⟩

/-- The block `mine` seals from `bcC2W` at timestamp `1700000247.0`. -/
def blkC2W : Block :=
  ⟨1, [tx1W], "1700000247.0",
   "0ab02aea1088ad34cf61f4d2e3163f353c35cb4e692070b5c8beed0f7aea4f03", 0,
   "00c3f4561f58434be6743285a76ae4edf8d360c064fa5449192beb9adee93856"⟩

/-- The state after that mine: one more block, empty buffer, registry untouched. -/
def bcC2Wpost : Blockchain :=
  ⟨[genesisW, blkC2W], [],
   [("11111111-2222-4333-8444-555555555555", ⟨"alice", "valid"⟩)]⟩

/-- C1 witness: a concrete proof-of-work run and a concrete mine both seal a hash
with two leading zero hex characters equal to the block's recomputed hash. -/
theorem mined_hash_meets_difficulty_inst :
    (strStartsWith "0061e126843c7171e4274893b4ed0ca4b34017899f4a46676e10010b49ae40b5"
       zeroPrefixStr = true ∧
     "0061e126843c7171e4274893b4ed0ca4b34017899f4a46676e10010b49ae40b5" =
       Block.compute_hash blkC1W) ∧
    (strStartsWith blkC2W.hash zeroPrefixStr = true ∧
     blkC2W.hash = Block.compute_hash blkC2W) :=
  ⟨(mined_hash_meets_difficulty 0).2.1 blkC1W blkC1W
     "0061e126843c7171e4274893b4ed0ca4b34017899f4a46676e10010b49ae40b5" (by decide),
   (mined_hash_meets_difficulty 0).2.2 "1700000247.0" bcC2W blkC2W bcC2Wpost (by decide)⟩

/-- C2: from any state with a non-empty pending buffer, a successful `mine()`
appends exactly one block: its index is the pre-call chain length, its transaction
list is the pending buffer in insertion order, and its `prev_hash` is the previous
tip's live-recomputed `compute_hash()`; afterwards the chain is exactly one block
longer, the pending buffer is empty, and the registry is untouched. -/
theorem mine_appends_one_block (fuel : Nat) (ts : String) (bc bc2 : Blockchain)
    (blk : Block) (_hpend : bc.pending_transactions ≠ [])
    (h : Blockchain.mine fuel ts bc = (MineResult.mined blk, bc2)) :
    blk.index = bc.chain.length ∧
    blk.transactions = bc.pending_transactions ∧
    (∃ tip, bc.chain.getLast? = some tip ∧ blk.prev_hash = Block.compute_hash tip) ∧
    bc2.chain = bc.chain ++ [blk] ∧
    bc2.chain.length = bc.chain.length + 1 ∧
    bc2.pending_transactions = [] ∧
    bc2.tickets = bc.tickets := by
  obtain ⟨_, htip, hidx, htx, _, _, _, hchain, hpend2, htk⟩ :=
    mine_mined_spec fuel ts bc bc2 blk h
  exact ⟨hidx, htx, htip, hchain, by simp [hchain], hpend2, htk⟩

/-- C2 witness: the concrete mine from `bcC2W` appends exactly `blkC2W`. -/
theorem mine_appends_one_block_inst :
    blkC2W.index = bcC2W.chain.length ∧
    blkC2W.transactions = bcC2W.pending_transactions ∧
    bcC2Wpost.chain = bcC2W.chain ++ [blkC2W] ∧
    bcC2Wpost.chain.length = bcC2W.chain.length + 1 ∧
    bcC2Wpost.pending_transactions = [] ∧
    bcC2Wpost.tickets = bcC2W.tickets :=
  have h := mine_appends_one_block 0 "1700000247.0" bcC2W bcC2Wpost blkC2W
    (by decide) (by decide)
  ⟨h.1, h.2.1, h.2.2.2.1, h.2.2.2.2.1, h.2.2.2.2.2.1, h.2.2.2.2.2.2⟩

/-- The sixteen lowercase hex digits. -/
def hexDigits : List Char := "0123456789abcdef".toList

theorem hexChar_mem (n : Nat) (h : n < 16) : hexChar n ∈ hexDigits := by
  interval_cases n <;> decide

theorem byteHex_mem (b : Nat) : ∀ c ∈ byteHex b, c ∈ hexDigits := by
  intro c hc
  simp only [byteHex, List.mem_cons, List.not_mem_nil, or_false] at hc
  rcases hc with rfl | rfl
  · exact hexChar_mem _ (Nat.mod_lt _ (by norm_num))
  · exact hexChar_mem _ (Nat.mod_lt _ (by norm_num))

theorem mem_foldr_byteHex (bs : List Nat) :
    ∀ c ∈ bs.foldr (fun b acc => byteHex b ++ acc) [], c ∈ hexDigits := by
  induction bs with
  | nil => simp
  | cons b rest ih =>
    intro c hc
    simp only [List.foldr_cons] at hc
    rcases List.mem_append.mp hc with h1 | h1
    · exact byteHex_mem b c h1
    · exact ih c h1

theorem length_foldr_byteHex (bs : List Nat) :
    (bs.foldr (fun b acc => byteHex b ++ acc) []).length = 2 * bs.length := by
  induction bs with
  | nil => simp
  | cons b rest ih =>
    rw [List.foldr_cons, List.length_append, ih, List.length_cons]
    have hb : (byteHex b).length = 2 := rfl
    omega

theorem sha256bytes_length (msg : List Nat) : (sha256bytes msg).length = 32 := by
  simp [sha256bytes, wordBytes]

/-- A digest string always has 64 characters. -/
theorem sha256hex_length (msg : List Nat) : (sha256hex msg).length = 64 := by
  show (String.mk ((sha256bytes msg).foldr (fun b acc => byteHex b ++ acc) [])).length = 64
  simp [String.length, length_foldr_byteHex, sha256bytes_length]

/-- Every character of a digest string is a lowercase hex digit. -/
theorem sha256hex_mem (msg : List Nat) : ∀ c ∈ (sha256hex msg).toList, c ∈ hexDigits :=
  mem_foldr_byteHex (sha256bytes msg)

/-- C8: `Transaction.compute_hash` is a pure function of the five fields — two
transactions agreeing on `tx_type`, `data`, `sender_pubkey`, `signature`, and
`timestamp` hash identically — and it is exactly SHA-256 of the sorted-key
serialization of the `to_dict()` record; the digest is a 64-character lowercase
hex string. -/
theorem transaction_hash_deterministic (t1 t2 : Transaction)
    (h1 : t1.tx_type = t2.tx_type) (h2 : t1.data = t2.data)
    (h3 : t1.sender_pubkey = t2.sender_pubkey) (h4 : t1.signature = t2.signature)
    (h5 : t1.timestamp = t2.timestamp) :
    t1.compute_hash = t2.compute_hash ∧
    t1.compute_hash = sha256hex (strBytes (dumpTxDict t1.to_dict)) ∧
    t1.compute_hash.length = 64 ∧
    ∀ c ∈ t1.compute_hash.toList, c ∈ hexDigits := by
  have ht : t1 = t2 := by
    cases t1; cases t2; simp_all
  subst ht
  exact ⟨rfl, rfl, sha256hex_length _, sha256hex_mem _⟩

/-- C8 witness: the determinism and round-trip facts at a concrete transaction;
its digest starts with the lowercase hex digit `5`. -/
theorem transaction_hash_deterministic_inst :
    tx1W.compute_hash = tx1W.compute_hash ∧
    tx1W.compute_hash = sha256hex (strBytes (dumpTxDict tx1W.to_dict)) ∧
    tx1W.compute_hash.length = 64 ∧
    '5' ∈ hexDigits :=
  have h := transaction_hash_deterministic tx1W tx1W rfl rfl rfl rfl rfl
  ⟨h.1, h.2.1, h.2.2.1, h.2.2.2 '5' (by decide)⟩

/-- C9: a freshly constructed chain holds exactly one block — the genesis — with
index 0, no transactions, `prev_hash = "0"`, and stored hash equal to its own
`compute_hash()`; the difficulty predicate is not enforced on it, witnessed by a
construction timestamp whose genesis hash has no `"00"` prefix. -/
theorem genesis_block_spec :
    (∀ ts : String,
       (Blockchain.start ts).chain.length = 1 ∧
       ∀ g ∈ (Blockchain.start ts).chain,
         g.index = 0 ∧ g.transactions = [] ∧ g.prev_hash = "0" ∧
         g.hash = Block.compute_hash g) ∧
    (Blockchain.start "1700000000.0").chain.all
      (fun g => !(strStartsWith g.hash zeroPrefixStr)) = true := by
  constructor
  · intro ts
    refine ⟨rfl, ?_⟩
    intro g hg
    simp only [Blockchain.start, Blockchain.create_genesis_block, List.nil_append,
               List.mem_singleton] at hg
    subst hg
    exact ⟨rfl, rfl, rfl, (Block.compute_hash_set_hash _ _).symm⟩
  · decide

/-- The state after the §8 sequence issue("concert","alice",10) →
transfer(tid,"bob") → redeem(tid) on a fresh chain, with no mine. -/
def bcC7W : Blockchain :=
  (redeem_ticket "aaaaaaaa-bbbb-4ccc-8ddd-eeeeeeeeeeee" none none "1700000003.5"
    ((transfer_ticket "aaaaaaaa-bbbb-4ccc-8ddd-eeeeeeeeeeee" "bob" none none "1700000002.5"
      ((issue_ticket "aaaaaaaa-bbbb-4ccc-8ddd-eeeeeeeeeeee" "concert" "alice" (JVal.num "10")
        none none "1700000001.5" (Blockchain.start "1700000000.0")).2)).2)).2

/-- C7 counterexample: after the §8 sequence — which contains no mine — the
ticket's history is empty, not three transactions: `ticket_history` scans only
mined blocks, and all three transactions are still in the pending buffer. -/
theorem ticket_history_no_mine_empty :
    ticket_history "aaaaaaaa-bbbb-4ccc-8ddd-eeeeeeeeeeee" bcC7W = [] ∧
    (ticket_history "aaaaaaaa-bbbb-4ccc-8ddd-eeeeeeeeeeee" bcC7W).length ≠ 3 ∧
    bcC7W.pending_transactions.length = 3 := by
  refine ⟨by decide, by decide, by decide⟩

/-- C7 amended: after the §8 sequence the history is empty (the transactions are
pending, not yet in any block); once a following `mineBlock()` succeeds, the
history returns exactly the three transactions in chain order: the issue, then
the transfer, then the redeem. -/
theorem ticket_history_after_sequence (ts0 tid ev ow : String) (pr : JVal)
    (pk1 sg1 pk2 sg2 pk3 sg3 : Option String) (ts1 ts2 ts3 : String)
    (nw : String) (fuel : Nat) (tsM : String) (blk : Block) (bc4 : Blockchain)
    (h : Blockchain.mine fuel tsM
          ((redeem_ticket tid pk3 sg3 ts3
            ((transfer_ticket tid nw pk2 sg2 ts2
              ((issue_ticket tid ev ow pr pk1 sg1 ts1 (Blockchain.start ts0)).2)).2)).2)
         = (MineResult.mined blk, bc4)) :
    ticket_history tid
        ((redeem_ticket tid pk3 sg3 ts3
          ((transfer_ticket tid nw pk2 sg2 ts2
            ((issue_ticket tid ev ow pr pk1 sg1 ts1 (Blockchain.start ts0)).2)).2)).2) = [] ∧
    ticket_history tid bc4 =
      [⟨"issue", [("ticket_id", JVal.str tid), ("event", JVal.str ev),
                  ("owner", JVal.str ow), ("price", pr)], pk1, sg1, ts1⟩,
       ⟨"transfer", [("ticket_id", JVal.str tid), ("new_owner", JVal.str nw)],
        pk2, sg2, ts2⟩,
       ⟨"redeem", [("ticket_id", JVal.str tid)], pk3, sg3, ts3⟩] := by
  obtain ⟨_, _, _, htx, _, _, _, hchain, _, _⟩ := mine_mined_spec _ _ _ _ _ h
  constructor
  · simp [ticket_history, Blockchain.start, Blockchain.create_genesis_block, Block.init,
          issue_ticket, transfer_ticket, redeem_ticket, Blockchain.add_transaction,
          Blockchain.record_ticket, Blockchain.verify_ticket, dictGet, dictSet]
  · rw [ticket_history, hchain]
    simp [List.foldl_append, htx, Blockchain.start, Blockchain.create_genesis_block,
          Block.init, issue_ticket, transfer_ticket, redeem_ticket,
          Blockchain.add_transaction, Blockchain.record_ticket, Blockchain.verify_ticket,
          dictGet, dictSet, dataGet, Transaction.to_dict]

/-- The issue transaction of the concrete §8 run. -/
def t1C7 : Transaction :=
  ⟨"issue",
   [("ticket_id", JVal.str "aaaaaaaa-bbbb-4ccc-8ddd-eeeeeeeeeeee"),
    ("event", JVal.str "concert"), ("owner", JVal.str "alice"), ("price", JVal.num "10")],
   none, none, "1700000001.5"⟩

/-- The transfer transaction of the concrete §8 run. -/
def t2C7 : Transaction :=
  ⟨"transfer",
   [("ticket_id", JVal.str "aaaaaaaa-bbbb-4ccc-8ddd-eeeeeeeeeeee"),
    ("new_owner", JVal.str "bob")],
   none, none, "1700000002.5"⟩

/-- The redeem transaction of the concrete §8 run. -/
def t3C7 : Transaction :=
  ⟨"redeem",
   [("ticket_id", JVal.str "aaaaaaaa-bbbb-4ccc-8ddd-eeeeeeeeeeee")],
   none, none, "1700000003.5"⟩

/-- The block mined from `bcC7W` at timestamp `1700000451.0` (its hash meets the
difficulty already at nonce 0; cross-checked against CPython). -/
def blkC7W : Block :=
  ⟨1, [t1C7, t2C7, t3C7], "1700000451.0",
   "0ab02aea1088ad34cf61f4d2e3163f353c35cb4e692070b5c8beed0f7aea4f03", 0,
   "005da8f36f873a4b13113c5a627d4b40c72db417b4ddf2bf9c76ddaf17d7c69e"⟩

/-- The state after mining `bcC7W`. -/
def bcC7post : Blockchain :=
  ⟨[genesisW, blkC7W], [],
   [("aaaaaaaa-bbbb-4ccc-8ddd-eeeeeeeeeeee", ⟨"bob", "redeemed"⟩)]⟩

/-- C7 amended witness: the concrete §8 run has empty history before mining and
exactly issue, transfer, redeem (in order) after the mine. -/
theorem ticket_history_after_sequence_inst :
    ticket_history "aaaaaaaa-bbbb-4ccc-8ddd-eeeeeeeeeeee" bcC7W = [] ∧
    ticket_history "aaaaaaaa-bbbb-4ccc-8ddd-eeeeeeeeeeee" bcC7post =
      [t1C7.to_dict, t2C7.to_dict, t3C7.to_dict] :=
  ticket_history_after_sequence "1700000000.0" "aaaaaaaa-bbbb-4ccc-8ddd-eeeeeeeeeeee"
    "concert" "alice" (JVal.num "10") none none none none none none
    "1700000001.5" "1700000002.5" "1700000003.5" "bob" 0 "1700000451.0"
    blkC7W bcC7post (by decide)

/-- C9 witness: the genesis block of the chain constructed at `1700000000.0` has
index 0, no transactions, `prev_hash = "0"`, and stored hash equal to its own
recomputed hash. -/
theorem genesis_block_spec_inst :
    genesisW.index = 0 ∧ genesisW.transactions = [] ∧ genesisW.prev_hash = "0" ∧
    genesisW.hash = Block.compute_hash genesisW :=
  (genesis_block_spec.1 "1700000000.0").2 genesisW (by decide)

/-- C10 witness: `bcC2Wpost` is reached by start → issue → mine, and its one
non-genesis block indeed carries a transaction. -/
theorem nongenesis_blocks_have_transactions_inst :
    blkC2W.transactions ≠ [] :=
  nongenesis_blocks_have_transactions bcC2Wpost
    ⟨"1700000000.0",
     Reach.tail
       (Reach.tail (Reach.refl (Blockchain.start "1700000000.0"))
         (show Step (Blockchain.start "1700000000.0") bcC2W from
           Step.issue "11111111-2222-4333-8444-555555555555" "concert" "alice"
             (JVal.num "10") none none "1700000001.0" (Blockchain.start "1700000000.0")
             (by decide)))
       (show Step bcC2W bcC2Wpost from Step.mine 0 "1700000247.0" bcC2W)⟩
    blkC2W (by decide)
